import Mathlib

/-!
Verification of the rescode repository: a generator that turns a declarative
list of error definitions (code, key, message, http, grpc, desc) into Go
constants and factory functions, plus the runtime error-value package.

The runtime package (rescode.New and the RC value type) is embedded directly
from its source. The internal generator package (ParseInput / Generate) is not
present in the repository snapshot, only its tests and its command-line caller
are; its data model, validation, format detection and emission are therefore
modelled from the specification, and each such definition is marked
`Modelled from the spec:` in its doc comment.
-/

/-- Modelled from the spec: one row of the input document, the `ErrorDefinition`
struct of the missing internal generator package. Field names follow the
generator tests (`Code`, `Key`, `Message`, `HTTP`, `GRPC`, `Desc`). -/
structure ErrorDefinition where
  Code : Nat
  Key : String
  Message : String
  HTTP : Int
  GRPC : Int
  Desc : String
deriving DecidableEq, Repr

/-- Modelled from the spec: the Emitter's input, a package name plus the
ordered list of definitions (the `Config` struct of the missing generator
package). -/
structure Config where
  Package : String
  Errors : List ErrorDefinition
deriving DecidableEq, Repr

/-- Modelled from the spec: per-record validation, checks in the fixed order
code, key, message, http, grpc, returning the message of the first violated
rule (or `none` when the record is valid). -/
def validateDefinition (e : ErrorDefinition) : Option String :=
  if e.Code = 0 then some "code cannot be 0"
  else if e.Key = "" then some "key cannot be empty"
  else if e.Message = "" then some "message cannot be empty"
  else if e.HTTP = 0 then some "http code cannot be 0"
  else if e.GRPC < 0 ∨ 16 < e.GRPC then some "grpc code must be between 0 and 16"
  else none

/-- Modelled from the spec: a validation error is attributable to its
originating record by index and key, and carries the violated rule's phrase. -/
def attrMsg (idx : Nat) (e : ErrorDefinition) (m : String) : String :=
  "invalid error definition at index " ++ Nat.repr idx ++ " (key \"" ++ e.Key ++ "\"): " ++ m

/-- Modelled from the spec: fail-fast validation of the record list in document
order, starting at index `i`; returns the first record's attributed error
message, or `none` when every record is valid. -/
def validateAll : Nat → List ErrorDefinition → Option String
  | _, [] => none
  | i, d :: ds =>
    match validateDefinition d with
    | some m => some (attrMsg i d m)
    | none => validateAll (i + 1) ds

/-- Modelled from the spec: the validation stage of `ParseInput`; on success it
returns exactly the records in source order. -/
def parseRecords (defs : List ErrorDefinition) : Except String (List ErrorDefinition) :=
  match validateAll 0 defs with
  | some e => Except.error e
  | none => Except.ok defs

/-- The two supported serialization formats of the input document. -/
inductive InputFormat
  | yaml
  | json
deriving DecidableEq, Repr

/-- Modelled from the spec: format indicated by the filename hint's extension,
`none` when the extension is unrecognized. -/
def extFormat (hint : String) : Option InputFormat :=
  if ".json".data.isSuffixOf hint.data then some InputFormat.json
  else if ".yaml".data.isSuffixOf hint.data || ".yml".data.isSuffixOf hint.data then
    some InputFormat.yaml
  else none

/-- The first significant character of the content: skip leading whitespace and
take the next character, if any. -/
def firstSignificantChar (content : String) : Option Char :=
  (content.data.dropWhile fun c => c.isWhitespace).head?

/-- Modelled from the spec: content sniffing; if the first significant
character is a bracket or a brace the stream is the JSON-family format,
otherwise the YAML-family format. -/
def sniffFormat (content : String) : InputFormat :=
  match firstSignificantChar content with
  | some c => if c = '[' ∨ c = '\x7b' then InputFormat.json else InputFormat.yaml
  | none => InputFormat.yaml

/-- Modelled from the spec: format detection of `ParseInput`, extension first,
content sniffing when the extension is unrecognized. -/
def detectFormat (hint content : String) : InputFormat :=
  match extFormat hint with
  | some f => f
  | none => sniffFormat content

/-- A decoded scalar field of a raw input record. -/
inductive FieldValue
  | intVal : Int → FieldValue
  | strVal : String → FieldValue
deriving DecidableEq, Repr

/-- A raw record as decoded by either serialization library: a map from field
names to scalar values. -/
def RawRecord : Type := List (String × FieldValue)

/-- Look up an integer field, defaulting to 0 when absent. -/
def fieldInt (r : RawRecord) (k : String) : Int :=
  match List.lookup k r with
  | some (FieldValue.intVal n) => n
  | _ => 0

/-- Look up a string field, defaulting to the empty string when absent. -/
def fieldStr (r : RawRecord) (k : String) : String :=
  match List.lookup k r with
  | some (FieldValue.strVal s) => s
  | _ => ""

/-- Modelled from the spec: decoding one YAML-family raw record into an
`ErrorDefinition`, reading the fields `code`, `key`, `message`, `http`,
`grpc`, `desc`. -/
def decodeYamlRecord (r : RawRecord) : ErrorDefinition :=
  { Code := (fieldInt r "code").toNat
    Key := fieldStr r "key"
    Message := fieldStr r "message"
    HTTP := fieldInt r "http"
    GRPC := fieldInt r "grpc"
    Desc := fieldStr r "desc" }

/-- Modelled from the spec: decoding one JSON-family raw record into an
`ErrorDefinition`; the JSON-family form uses the same field names. -/
def decodeJsonRecord (r : RawRecord) : ErrorDefinition :=
  { Code := (fieldInt r "code").toNat
    Key := fieldStr r "key"
    Message := fieldStr r "message"
    HTTP := fieldInt r "http"
    GRPC := fieldInt r "grpc"
    Desc := fieldStr r "desc" }

/-- Decode one raw record under the given format. -/
def decodeAs : InputFormat → RawRecord → ErrorDefinition
  | InputFormat.yaml, r => decodeYamlRecord r
  | InputFormat.json, r => decodeJsonRecord r

/-- Modelled from the spec: decode the whole document under the given format,
then validate in document order. -/
def parseDoc (f : InputFormat) (doc : List RawRecord) : Except String (List ErrorDefinition) :=
  parseRecords (doc.map (decodeAs f))

/-- Modelled from the spec: the generated-file marker heading every output. -/
def genMarker : String := "// Code generated by rescodegen. DO NOT EDIT.\n\n"

/-- Modelled from the spec: the package declaration, falling back to "main"
when the configured package name is empty. -/
def packageLine (pkg : String) : String :=
  "package " ++ (if pkg = "" then "main" else pkg) ++ "\n\n"

/-- Modelled from the spec: the file header, marker plus package declaration. -/
def fileHeader (pkg : String) : String := genMarker ++ packageLine pkg

/-- The fixed reference to the runtime error-value package. -/
def rescodeImportLine : String := "\t\"github.com/restayway/rescode\"\n"

/-- The fixed reference to the RPC status-code package. -/
def grpcImportLine : String := "\t\"google.golang.org/grpc/codes\"\n"

/-- Modelled from the spec: the two fixed external references, emitted
unconditionally. -/
def importsBlock : String :=
  "import (\n" ++ rescodeImportLine ++ grpcImportLine ++ ")\n\n"

/-- Quote a string value as a Go string literal. -/
def quoteStr (s : String) : String := "\"" ++ s ++ "\""

/-- The `<Key>Code` constant line. -/
def codeLine (d : ErrorDefinition) : String :=
  d.Key ++ "Code uint64 = " ++ Nat.repr d.Code

/-- The `<Key>HTTP` constant line. -/
def httpLine (d : ErrorDefinition) : String :=
  d.Key ++ "HTTP int = " ++ Int.repr d.HTTP

/-- The `<Key>GRPC` constant line. -/
def grpcLine (d : ErrorDefinition) : String :=
  d.Key ++ "GRPC codes.Code = " ++ Int.repr d.GRPC

/-- The `<Key>Msg` constant line. -/
def msgLine (d : ErrorDefinition) : String :=
  d.Key ++ "Msg string = " ++ quoteStr d.Message

/-- The `<Key>Desc` constant line. -/
def descLine (d : ErrorDefinition) : String :=
  d.Key ++ "Desc string = " ++ quoteStr d.Desc

/-- Modelled from the spec: the constant lines of one definition, the four
mandatory constants unconditionally and the `<Key>Desc` constant only when the
description is non-empty. -/
def constLines (d : ErrorDefinition) : List String :=
  [codeLine d, httpLine d, grpcLine d, msgLine d]
    ++ (if d.Desc = "" then [] else [descLine d])

/-- Render one constant line with indentation. -/
def lineOut (l : String) : String := "\t" ++ l ++ "\n"

/-- Join rendered lines. -/
def joinLines : List String → String
  | [] => ""
  | l :: ls => lineOut l ++ joinLines ls

/-- The rendered constant group of one definition. -/
def constGroup (d : ErrorDefinition) : String := joinLines (constLines d)

/-- The doc comment of a factory function, naming the key. -/
def funcDoc (d : ErrorDefinition) : String :=
  "// " ++ d.Key ++ " creates a new " ++ d.Key ++ " error.\n"

/-- The description comment, present only when the description is non-empty. -/
def descComment (d : ErrorDefinition) : String :=
  if d.Desc = "" then "" else "// " ++ d.Desc ++ "\n"

/-- The signature line of the factory function of one definition. -/
def funcSignature (d : ErrorDefinition) : String :=
  "func " ++ d.Key ++ "(err ...error) *rescode.RC \x7b\n"

/-- The body of the factory function of one definition. -/
def funcBody (d : ErrorDefinition) : String :=
  "\treturn rescode.New(" ++ d.Key ++ "Code, " ++ d.Key ++ "HTTP, "
    ++ d.Key ++ "GRPC, " ++ d.Key ++ "Msg)(err...)\n\x7d\n\n"

/-- Modelled from the spec: the complete factory function block of one
definition, doc comment, optional description comment, signature and body. -/
def funcBlock (d : ErrorDefinition) : String :=
  funcDoc d ++ descComment d ++ funcSignature d ++ funcBody d

/-- Emit one block per definition, in input order. -/
def emitList (f : ErrorDefinition → String) : List ErrorDefinition → String
  | [] => ""
  | d :: ds => f d ++ emitList f ds

/-- The concatenated constant groups, in input order. -/
def emitConsts (l : List ErrorDefinition) : String := emitList constGroup l

/-- The concatenated factory functions, in input order. -/
def emitFuncs (l : List ErrorDefinition) : String := emitList funcBlock l

/-- Modelled from the spec: `Generate`, the deterministic emission of the
generated source text from a `Config`: header, fixed imports, one constant
group per definition in input order, one factory function per definition in
input order. -/
def generate (c : Config) : String :=
  fileHeader c.Package ++ importsBlock ++ "const (\n" ++ emitConsts c.Errors
    ++ ")\n\n" ++ emitFuncs c.Errors

/-- An execution environment: wall-clock reading, a random seed and the
process environment, everything the emitter could in principle observe. -/
structure EmitEnv where
  now : String
  randSeed : Nat
  envVars : String → String

/-- Modelled from the spec: an invocation of the emitter inside an
environment; the output is a function of the `Config` alone, with no
timestamps, random ordering or environment-dependent content. -/
def generateRun (_env : EmitEnv) (c : Config) : String := generate c

/-- Is `pat` a prefix of the second character list. -/
def isPrefOf : List Char → List Char → Bool
  | [], _ => true
  | _ :: _, [] => false
  | a :: as, b :: bs => a == b && isPrefOf as bs

/-- Does the second character list contain `pat` as a contiguous run. -/
def hasSub (pat : List Char) : List Char → Bool
  | [] => isPrefOf pat []
  | c :: t => isPrefOf pat (c :: t) || hasSub pat t

/-- Substring containment on strings, used to state the content checks of the
generated text. -/
def strIncludes (s pat : String) : Bool := hasSub pat.data s.data

/-- The runtime error value of the rescode package, embedded from its source:
code, message, http and rpc status, optional attached data and an optional
wrapped error. `α` stands for Go's `any`, `ε` for Go's `error`. -/
structure RC (α ε : Type) where
  Code : Nat
  Message : String
  HttpCode : Int
  RpcCode : Nat
  Data : Option α
  err : Option ε

/-- The creator function type returned by `New`, embedded from the source. -/
def RcCreator (α ε : Type) : Type := List ε → RC α ε

/-- rescode.New embedded from the source: captures the first data value, if
any, and builds a creator that stores the first wrapped error, if any. -/
def New {α ε : Type} (code : Nat) (hCode : Int) (rCode : Nat) (message : String)
    (data : List α) : RcCreator α ε :=
  let d : Option α :=
    match data with
    | [] => none
    | x :: _ => some x
  fun errs =>
    let rc : RC α ε :=
      { Code := code, Message := message, HttpCode := hCode, RpcCode := rCode,
        Data := d, err := none }
    match errs with
    | [] => rc
    | e :: _ => { rc with err := some e }

theorem strData_ext {s t : String} (h : s.data = t.data) : s = t := by
  cases s
  cases t
  exact congrArg String.mk h

theorem strData_append (s t : String) : (s ++ t).data = s.data ++ t.data := by
  cases s
  cases t
  rfl

theorem str_append_assoc (a b c : String) : (a ++ b) ++ c = a ++ (b ++ c) := by
  apply strData_ext
  rw [strData_append, strData_append, strData_append, strData_append, List.append_assoc]

theorem str_empty_append (s : String) : "" ++ s = s := by
  apply strData_ext
  rw [strData_append]
  simp [String.data]

theorem isPrefOf_refl (l : List Char) : isPrefOf l l = true := by
  induction l with
  | nil => rfl
  | cons a as ih => simp [isPrefOf, ih]

theorem isPrefOf_mono (pat l t : List Char) (h : isPrefOf pat l = true) :
    isPrefOf pat (l ++ t) = true := by
  induction pat generalizing l with
  | nil => rfl
  | cons a as ih =>
    cases l with
    | nil => simp [isPrefOf] at h
    | cons b bs =>
      simp only [isPrefOf, Bool.and_eq_true, beq_iff_eq] at h
      simp only [List.cons_append, isPrefOf, Bool.and_eq_true, beq_iff_eq]
      exact ⟨h.1, ih bs h.2⟩

theorem hasSub_of_isPrefOf (pat hay : List Char) (h : isPrefOf pat hay = true) :
    hasSub pat hay = true := by
  cases hay with
  | nil => exact h
  | cons c t => simp [hasSub, h]

theorem hasSub_nil_pat (hay : List Char) : hasSub [] hay = true := by
  cases hay with
  | nil => rfl
  | cons c t => simp [hasSub, isPrefOf]

theorem hasSub_append_right (s t pat : List Char) (h : hasSub pat s = true) :
    hasSub pat (s ++ t) = true := by
  induction s with
  | nil =>
    cases pat with
    | nil => exact hasSub_nil_pat t
    | cons a as => simp [hasSub, isPrefOf] at h
  | cons c s' ih =>
    simp only [hasSub, Bool.or_eq_true] at h
    simp only [List.cons_append, hasSub, Bool.or_eq_true]
    cases h with
    | inl hp => exact Or.inl (isPrefOf_mono pat (c :: s') t hp)
    | inr hs => exact Or.inr (ih hs)

theorem hasSub_append_left (s t pat : List Char) (h : hasSub pat t = true) :
    hasSub pat (s ++ t) = true := by
  induction s with
  | nil => simpa using h
  | cons c s' ih =>
    simp only [List.cons_append, hasSub, Bool.or_eq_true]
    exact Or.inr ih

theorem strIncludes_self (p : String) : strIncludes p p = true :=
  hasSub_of_isPrefOf _ _ (isPrefOf_refl _)

theorem strIncludes_left (s t p : String) (h : strIncludes s p = true) :
    strIncludes (s ++ t) p = true := by
  unfold strIncludes at h ⊢
  rw [strData_append]
  exact hasSub_append_right _ _ _ h

theorem strIncludes_right (s t p : String) (h : strIncludes t p = true) :
    strIncludes (s ++ t) p = true := by
  unfold strIncludes at h ⊢
  rw [strData_append]
  exact hasSub_append_left _ _ _ h

theorem str_append_ne_of_head (k a b : String) (ha : a.data.head? ≠ b.data.head?) :
    k ++ a ≠ k ++ b := by
  intro he
  apply ha
  have hd := congrArg String.data he
  rw [strData_append, strData_append] at hd
  rw [List.append_cancel_left hd]

theorem keyline_ne (k : String) (c₁ c₂ : Char) (r₁ r₂ s₁ s₂ : String)
    (h₁ : s₁.data = c₁ :: r₁.data) (h₂ : s₂.data = c₂ :: r₂.data) (hc : c₁ ≠ c₂)
    (q₁ q₂ : String) :
    (k ++ s₁) ++ q₁ ≠ (k ++ s₂) ++ q₂ := by
  rw [str_append_assoc, str_append_assoc]
  apply str_append_ne_of_head
  rw [strData_append, strData_append, h₁, h₂]
  simp [hc]

theorem validateAll_firstError (i : Nat) (pre : List ErrorDefinition) (e : ErrorDefinition)
    (post : List ErrorDefinition) (m : String)
    (hpre : ∀ p ∈ pre, validateDefinition p = none)
    (he : validateDefinition e = some m) :
    validateAll i (pre ++ e :: post) = some (attrMsg (i + pre.length) e m) := by
  induction pre generalizing i with
  | nil => simp [validateAll, he]
  | cons p pre' ih =>
    have hp : validateDefinition p = none := hpre p (List.mem_cons_self p pre')
    have hrest : ∀ q ∈ pre', validateDefinition q = none :=
      fun q hq => hpre q (List.mem_cons_of_mem p hq)
    simp only [List.cons_append, validateAll, hp]
    show validateAll (i + 1) (pre' ++ e :: post) = some (attrMsg (i + (p :: pre').length) e m)
    rw [ih (i + 1) hrest]
    have harith : i + 1 + pre'.length = i + (p :: pre').length := by
      simp [List.length_cons]
      omega
    rw [harith]

theorem emitList_decomp (f : ErrorDefinition → String) (l : List ErrorDefinition)
    (i : Nat) (h : i < l.length) :
    ∃ t, emitList f l = emitList f (l.take i) ++ (f (l.get ⟨i, h⟩) ++ t) := by
  induction l generalizing i with
  | nil => exact absurd h (by simp)
  | cons d ds ih =>
    cases i with
    | zero =>
      refine ⟨emitList f ds, ?_⟩
      show emitList f (d :: ds) = emitList f [] ++ (f d ++ emitList f ds)
      rw [show emitList f [] = "" from rfl, str_empty_append]
      rfl
    | succ i' =>
      have h' : i' < ds.length := by simpa using h
      obtain ⟨t, ht⟩ := ih i' h'
      refine ⟨t, ?_⟩
      show f d ++ emitList f ds = emitList f (d :: ds.take i') ++ (f (ds.get ⟨i', h'⟩) ++ t)
      rw [ht]
      show f d ++ (emitList f (ds.take i') ++ (f (ds.get ⟨i', h'⟩) ++ t))
        = (f d ++ emitList f (ds.take i')) ++ (f (ds.get ⟨i', h'⟩) ++ t)
      rw [str_append_assoc]

theorem emitList_mem_includes (f g : ErrorDefinition → String) {d : ErrorDefinition}
    {l : List ErrorDefinition} (hd : d ∈ l)
    (hfg : strIncludes (f d) (g d) = true) :
    strIncludes (emitList f l) (g d) = true := by
  induction l with
  | nil => cases hd
  | cons a l' ih =>
    rcases List.mem_cons.mp hd with h | h
    · subst h
      exact strIncludes_left _ _ _ hfg
    · exact strIncludes_right _ _ _ (ih h)

theorem sniffFormat_eq_json_iff (content : String) :
    sniffFormat content = InputFormat.json
      ↔ (firstSignificantChar content = some '['
          ∨ firstSignificantChar content = some '\x7b') := by
  unfold sniffFormat
  rcases hfc : firstSignificantChar content with _ | c
  · simp
  · by_cases h1 : c = '['
    · simp [h1]
    · by_cases h2 : c = '\x7b'
      · simp [h1, h2]
      · simp [h1, h2]

/-- C4: the same logical data expressed in either supported serialization
produces identical parsed records: parsing a document of raw records under the
YAML-family format and under the JSON-family format yields the same result,
and for each raw record the decoded code, key, message, http, grpc and desc
fields agree between the two formats. -/
theorem c4_format_equivalence (doc : List RawRecord) (r : RawRecord) :
    parseDoc InputFormat.yaml doc = parseDoc InputFormat.json doc
    ∧ (decodeYamlRecord r).Code = (decodeJsonRecord r).Code
    ∧ (decodeYamlRecord r).Key = (decodeJsonRecord r).Key
    ∧ (decodeYamlRecord r).Message = (decodeJsonRecord r).Message
    ∧ (decodeYamlRecord r).HTTP = (decodeJsonRecord r).HTTP
    ∧ (decodeYamlRecord r).GRPC = (decodeJsonRecord r).GRPC
    ∧ (decodeYamlRecord r).Desc = (decodeJsonRecord r).Desc := by
  refine ⟨?_, rfl, rfl, rfl, rfl, rfl, rfl⟩
  unfold parseDoc
  have hdec : ∀ q : RawRecord, decodeAs InputFormat.yaml q = decodeAs InputFormat.json q :=
    fun _ => rfl
  rw [List.map_congr_left fun q _ => hdec q]

/-- C5: the emitter is deterministic; an invocation reads nothing from its
environment (time, randomness, process environment), so for a fixed Config any
two invocations, in any two environments, return byte-for-byte identical
output. -/
theorem c5_emitter_determinism (e₁ e₂ : EmitEnv) (c : Config) :
    generateRun e₁ c = generateRun e₂ c := rfl

/-- C8: for every Config, including one with an empty definition list, the
generated text contains the two fixed external references, the runtime
error-value package and the RPC status-code package. -/
theorem c8_fixed_imports (c : Config) :
    strIncludes (generate c) "\"github.com/restayway/rescode\"" = true
    ∧ strIncludes (generate c) "\"google.golang.org/grpc/codes\"" = true := by
  constructor
  · apply strIncludes_left
    apply strIncludes_left
    apply strIncludes_left
    apply strIncludes_left
    apply strIncludes_right
    decide
  · apply strIncludes_left
    apply strIncludes_left
    apply strIncludes_left
    apply strIncludes_left
    apply strIncludes_right
    decide

/-- C10: rescode.New stores only the first data value passed to it, and the
creator it returns stores only the first wrapped error; further values of
either list are silently discarded, and the stored option is `none` when the
corresponding list is empty. -/
theorem c10_new_first_error_and_data {α ε : Type} (code : Nat) (hCode : Int)
    (rCode : Nat) (message : String) (data : List α) (errs : List ε)
    (d₀ : α) (ds : List α) (e₀ : ε) (es : List ε) :
    (New code hCode rCode message data errs).err = errs.head?
    ∧ (New code hCode rCode message data errs).Data = data.head?
    ∧ New code hCode rCode message (d₀ :: ds) errs = New code hCode rCode message [d₀] errs
    ∧ New (α := α) code hCode rCode message data (e₀ :: es)
        = New code hCode rCode message data [e₀] := by
  refine ⟨?_, ?_, ?_, ?_⟩
  · cases errs <;> cases data <;> rfl
  · cases errs <;> cases data <;> rfl
  · cases errs <;> rfl
  · cases data <;> rfl

theorem descLine_ne_codeLine (d : ErrorDefinition) : descLine d ≠ codeLine d :=
  keyline_ne d.Key 'D' 'C' "esc string = " "ode uint64 = " "Desc string = "
    "Code uint64 = " rfl rfl (by decide) (quoteStr d.Desc) (Nat.repr d.Code)

theorem descLine_ne_httpLine (d : ErrorDefinition) : descLine d ≠ httpLine d :=
  keyline_ne d.Key 'D' 'H' "esc string = " "TTP int = " "Desc string = "
    "HTTP int = " rfl rfl (by decide) (quoteStr d.Desc) (Int.repr d.HTTP)

theorem descLine_ne_grpcLine (d : ErrorDefinition) : descLine d ≠ grpcLine d :=
  keyline_ne d.Key 'D' 'G' "esc string = " "RPC codes.Code = " "Desc string = "
    "GRPC codes.Code = " rfl rfl (by decide) (quoteStr d.Desc) (Int.repr d.GRPC)

theorem descLine_ne_msgLine (d : ErrorDefinition) : descLine d ≠ msgLine d :=
  keyline_ne d.Key 'D' 'M' "esc string = " "sg string = " "Desc string = "
    "Msg string = " rfl rfl (by decide) (quoteStr d.Desc) (quoteStr d.Message)

/-- C6: for every definition the emitter emits the four constants Code, HTTP,
GRPC and Msg unconditionally, emits the Desc constant exactly when the desc
field is non-empty (with empty desc the constant group is exactly the four
mandatory lines), and a definition with empty desc still gets its complete
factory function and doc comment in the generated text. -/
theorem c6_conditional_desc (d : ErrorDefinition) (c : Config) (hd : d ∈ c.Errors) :
    (descLine d ∈ constLines d ↔ d.Desc ≠ "")
    ∧ (d.Desc = "" → constLines d = [codeLine d, httpLine d, grpcLine d, msgLine d])
    ∧ codeLine d ∈ constLines d ∧ httpLine d ∈ constLines d
    ∧ grpcLine d ∈ constLines d ∧ msgLine d ∈ constLines d
    ∧ strIncludes (generate c) (funcSignature d) = true
    ∧ strIncludes (generate c) (funcDoc d) = true := by
  refine ⟨⟨?_, ?_⟩, ?_, ?_, ?_, ?_, ?_, ?_, ?_⟩
  · intro hmem hdesc
    rw [constLines, if_pos hdesc, List.append_nil] at hmem
    simp only [List.mem_cons, List.not_mem_nil, or_false] at hmem
    rcases hmem with h | h | h | h
    · exact descLine_ne_codeLine d h
    · exact descLine_ne_httpLine d h
    · exact descLine_ne_grpcLine d h
    · exact descLine_ne_msgLine d h
  · intro hdesc
    rw [constLines, if_neg hdesc]
    simp
  · intro hdesc
    rw [constLines, if_pos hdesc, List.append_nil]
  · rw [constLines]
    exact List.mem_append_left _ (by simp)
  · rw [constLines]
    exact List.mem_append_left _ (by simp)
  · rw [constLines]
    exact List.mem_append_left _ (by simp)
  · rw [constLines]
    exact List.mem_append_left _ (by simp)
  · apply strIncludes_right
    apply emitList_mem_includes funcBlock funcSignature hd
    show strIncludes (((funcDoc d ++ descComment d) ++ funcSignature d) ++ funcBody d)
      (funcSignature d) = true
    apply strIncludes_left
    apply strIncludes_right
    exact strIncludes_self _
  · apply strIncludes_right
    apply emitList_mem_includes funcBlock funcDoc hd
    show strIncludes (((funcDoc d ++ descComment d) ++ funcSignature d) ++ funcBody d)
      (funcDoc d) = true
    apply strIncludes_left
    apply strIncludes_left
    apply strIncludes_left
    exact strIncludes_self _

/-- C7: an empty package name in the Config yields a package declaration equal
to "main" in the generated text; a non-empty package name is used directly. -/
theorem c7_default_package (c : Config) :
    (c.Package = "" → strIncludes (generate c) "package main" = true)
    ∧ (c.Package ≠ "" → strIncludes (generate c) ("package " ++ c.Package) = true) := by
  constructor
  · intro hp
    apply strIncludes_left
    apply strIncludes_left
    apply strIncludes_left
    apply strIncludes_left
    apply strIncludes_left
    rw [hp]
    decide
  · intro hp
    apply strIncludes_left
    apply strIncludes_left
    apply strIncludes_left
    apply strIncludes_left
    apply strIncludes_left
    unfold fileHeader packageLine
    rw [if_neg hp]
    apply strIncludes_right
    apply strIncludes_left
    exact strIncludes_self _

/-- C1: validation runs per record in document order and stops at the first
failing record; for each record the checks run in the fixed order code, key,
message, http, grpc with the spec's exact phrases; grpc is accepted exactly on
the closed range 0..16 (so 16 is accepted and 17 rejected); and the error
returned for the first failing record contains the exact phrase of the first
violated rule. -/
theorem c1_validation_order_and_messages (e : ErrorDefinition) (i : Nat)
    (pre post : List ErrorDefinition)
    (hpre : ∀ p ∈ pre, validateDefinition p = none) :
    (e.Code = 0 → validateDefinition e = some "code cannot be 0")
    ∧ (e.Code ≠ 0 → e.Key = "" → validateDefinition e = some "key cannot be empty")
    ∧ (e.Code ≠ 0 → e.Key ≠ "" → e.Message = "" →
        validateDefinition e = some "message cannot be empty")
    ∧ (e.Code ≠ 0 → e.Key ≠ "" → e.Message ≠ "" → e.HTTP = 0 →
        validateDefinition e = some "http code cannot be 0")
    ∧ (e.Code ≠ 0 → e.Key ≠ "" → e.Message ≠ "" → e.HTTP ≠ 0 →
        (e.GRPC < 0 ∨ 16 < e.GRPC) →
        validateDefinition e = some "grpc code must be between 0 and 16")
    ∧ (e.Code ≠ 0 → e.Key ≠ "" → e.Message ≠ "" → e.HTTP ≠ 0 →
        0 ≤ e.GRPC → e.GRPC ≤ 16 → validateDefinition e = none)
    ∧ (∀ m, validateDefinition e = some m →
        validateAll i (pre ++ e :: post) = some (attrMsg (i + pre.length) e m)
        ∧ strIncludes (attrMsg (i + pre.length) e m) m = true) := by
  refine ⟨?_, ?_, ?_, ?_, ?_, ?_, ?_⟩
  · intro h1
    simp [validateDefinition, h1]
  · intro h1 h2
    simp [validateDefinition, h1, h2]
  · intro h1 h2 h3
    simp [validateDefinition, h1, h2, h3]
  · intro h1 h2 h3 h4
    simp [validateDefinition, h1, h2, h3, h4]
  · intro h1 h2 h3 h4 h5
    simp [validateDefinition, h1, h2, h3, h4, h5]
  · intro h1 h2 h3 h4 h5 h6
    have hg : ¬(e.GRPC < 0 ∨ 16 < e.GRPC) := by omega
    simp [validateDefinition, h1, h2, h3, h4, hg]
  · intro m hm
    refine ⟨validateAll_firstError i pre e post m hpre hm, ?_⟩
    unfold attrMsg
    apply strIncludes_right
    exact strIncludes_self _

/-- C9: every validation error identifies the originating record by its index
in the document and its key, in addition to carrying the violated rule's
phrase: when the records before index `i + pre.length` are all valid and the
next record fails, the returned error message contains the decimal rendering
of that index, the record's key, and the rule phrase. -/
theorem c9_error_attribution (i : Nat) (pre : List ErrorDefinition)
    (e : ErrorDefinition) (post : List ErrorDefinition) (m : String)
    (hpre : ∀ p ∈ pre, validateDefinition p = none)
    (he : validateDefinition e = some m) :
    ∃ err, validateAll i (pre ++ e :: post) = some err
      ∧ strIncludes err (Nat.repr (i + pre.length)) = true
      ∧ strIncludes err e.Key = true
      ∧ strIncludes err m = true := by
  refine ⟨attrMsg (i + pre.length) e m,
    validateAll_firstError i pre e post m hpre he, ?_, ?_, ?_⟩
  · unfold attrMsg
    apply strIncludes_left
    apply strIncludes_left
    apply strIncludes_left
    apply strIncludes_left
    apply strIncludes_right
    exact strIncludes_self _
  · unfold attrMsg
    apply strIncludes_left
    apply strIncludes_left
    apply strIncludes_right
    exact strIncludes_self _
  · unfold attrMsg
    apply strIncludes_right
    exact strIncludes_self _

/-- C2: when the filename hint's extension is neither a YAML-family nor a JSON
extension the parser detects the format by content, decoding as the
JSON-family format exactly when the first significant character (after
skipping leading whitespace) is a bracket or a brace and as the YAML-family
format otherwise; when the extension unambiguously indicates a format, that
format is used directly. -/
theorem c2_format_detection (hint content : String) :
    (extFormat hint = none →
      (detectFormat hint content = InputFormat.json
        ↔ (firstSignificantChar content = some '['
            ∨ firstSignificantChar content = some '\x7b')))
    ∧ (∀ f, extFormat hint = some f → detectFormat hint content = f) := by
  constructor
  · intro hext
    unfold detectFormat
    rw [hext]
    exact sniffFormat_eq_json_iff content
  · intro f hf
    unfold detectFormat
    rw [hf]

/-- C3: order preservation; a successfully parsed document yields exactly its
records in document order (no sorting by code or key), and in the emitted text
the constant group and the factory function of the i-th definition appear
immediately after the blocks of all earlier definitions, the whole output
being the in-order concatenation of header, imports, constant groups and
factory functions. -/
theorem c3_order_preservation (f : InputFormat) (doc : List RawRecord)
    (l : List ErrorDefinition) (c : Config) (i : Nat) (h : i < c.Errors.length) :
    (parseDoc f doc = Except.ok l → l = doc.map (decodeAs f))
    ∧ (∃ t, emitConsts c.Errors
        = emitConsts (c.Errors.take i) ++ (constGroup (c.Errors.get ⟨i, h⟩) ++ t))
    ∧ (∃ t, emitFuncs c.Errors
        = emitFuncs (c.Errors.take i) ++ (funcBlock (c.Errors.get ⟨i, h⟩) ++ t))
    ∧ generate c = fileHeader c.Package ++ importsBlock ++ "const (\n"
        ++ emitConsts c.Errors ++ ")\n\n" ++ emitFuncs c.Errors := by
  refine ⟨?_, ?_, ?_, rfl⟩
  · intro hok
    unfold parseDoc parseRecords at hok
    cases hval : validateAll 0 (doc.map (decodeAs f)) with
    | some e =>
      rw [hval] at hok
      exact absurd hok (by simp)
    | none =>
      rw [hval] at hok
      exact (Except.ok.inj hok).symm
  · exact emitList_decomp constGroup c.Errors i h
  · exact emitList_decomp funcBlock c.Errors i h

/-- C1 witness: validation at concrete records; grpc 17 is rejected with the
exact phrase, grpc 16 is accepted, code 0 is rejected, and a document whose
second record is the first invalid one fails with that record's attributed
error containing the phrase. -/
theorem c1_validation_order_and_messages_witness :
    validateDefinition ⟨20001, "Test", "Test message", 400, 17, ""⟩
      = some "grpc code must be between 0 and 16"
    ∧ validateDefinition ⟨20001, "Test", "Test message", 400, 16, ""⟩ = none
    ∧ validateDefinition ⟨0, "Test", "Test message", 400, 3, ""⟩ = some "code cannot be 0"
    ∧ validateAll 0 [⟨20001, "PolicyNotFound", "Policy not found", 404, 5, ""⟩,
        ⟨20001, "Test", "Test message", 400, 17, ""⟩]
      = some (attrMsg 1 ⟨20001, "Test", "Test message", 400, 17, ""⟩
          "grpc code must be between 0 and 16")
    ∧ strIncludes (attrMsg 1 ⟨20001, "Test", "Test message", 400, 17, ""⟩
          "grpc code must be between 0 and 16")
        "grpc code must be between 0 and 16" = true := by
  have h17 := c1_validation_order_and_messages ⟨20001, "Test", "Test message", 400, 17, ""⟩ 0
    [⟨20001, "PolicyNotFound", "Policy not found", 404, 5, ""⟩] [] (by decide)
  have h16 := c1_validation_order_and_messages ⟨20001, "Test", "Test message", 400, 16, ""⟩ 0
    [] [] (by decide)
  have h0 := c1_validation_order_and_messages ⟨0, "Test", "Test message", 400, 3, ""⟩ 0 [] []
    (by decide)
  have hgm := h17.2.2.2.2.2.2 "grpc code must be between 0 and 16"
    (h17.2.2.2.2.1 (by decide) (by decide) (by decide) (by decide) (by decide))
  exact ⟨h17.2.2.2.2.1 (by decide) (by decide) (by decide) (by decide) (by decide),
    h16.2.2.2.2.2.1 (by decide) (by decide) (by decide) (by decide) (by decide) (by decide),
    h0.1 rfl, hgm.1, hgm.2⟩

/-- C2 witness: with the unrecognized extension ".unknown" a document starting
with a bracket is detected as JSON-family and one starting with a dash as
YAML-family; with a recognized extension the extension decides. -/
theorem c2_format_detection_witness :
    detectFormat "test.unknown" " [\x7b\"code\": 1\x7d]" = InputFormat.json
    ∧ detectFormat "test.unknown" "- code: 20001\n" = InputFormat.yaml
    ∧ detectFormat "test.yaml" "[]" = InputFormat.yaml := by
  refine ⟨?_, ?_, ?_⟩
  · exact ((c2_format_detection "test.unknown" " [\x7b\"code\": 1\x7d]").1 (by decide)).2
      (Or.inl (by decide))
  · cases hd : detectFormat "test.unknown" "- code: 20001\n" with
    | yaml => rfl
    | json =>
      rcases ((c2_format_detection "test.unknown" "- code: 20001\n").1 (by decide)).1 hd
        with hcontra | hcontra
      · exact absurd hcontra (by decide)
      · exact absurd hcontra (by decide)
  · exact (c2_format_detection "test.yaml" "[]").2 InputFormat.yaml (by decide)

/-- C3 witness: a concrete one-record document parses to exactly its decoded
record, and in a two-definition list, deliberately not sorted by code or key,
the second definition's constant group appears immediately after the first's. -/
theorem c3_order_preservation_witness :
    ([⟨1, "A", "m", 1, 0, ""⟩] : List ErrorDefinition)
      = List.map (decodeAs InputFormat.yaml)
          [[("code", FieldValue.intVal 1), ("key", FieldValue.strVal "A"),
            ("message", FieldValue.strVal "m"), ("http", FieldValue.intVal 1),
            ("grpc", FieldValue.intVal 0)]]
    ∧ ∃ t, emitConsts [⟨2, "B", "m", 1, 0, ""⟩, ⟨1, "A", "m", 1, 0, ""⟩]
        = emitConsts [⟨2, "B", "m", 1, 0, ""⟩]
          ++ (constGroup ⟨1, "A", "m", 1, 0, ""⟩ ++ t) := by
  have h := c3_order_preservation InputFormat.yaml
    [[("code", FieldValue.intVal 1), ("key", FieldValue.strVal "A"),
      ("message", FieldValue.strVal "m"), ("http", FieldValue.intVal 1),
      ("grpc", FieldValue.intVal 0)]]
    [⟨1, "A", "m", 1, 0, ""⟩]
    ⟨"testpkg", [⟨2, "B", "m", 1, 0, ""⟩, ⟨1, "A", "m", 1, 0, ""⟩]⟩ 1 (by decide)
  exact ⟨h.1 rfl, h.2.1⟩

/-- C6 witness: a concrete definition with empty desc has no Desc constant
line (its constant group is exactly the four mandatory lines) yet the
generated text still contains its factory function signature. -/
theorem c6_conditional_desc_witness :
    (descLine ⟨20001, "TestError", "Test message", 400, 3, ""⟩
        ∈ constLines ⟨20001, "TestError", "Test message", 400, 3, ""⟩
      ↔ (⟨20001, "TestError", "Test message", 400, 3, ""⟩ : ErrorDefinition).Desc ≠ "")
    ∧ constLines ⟨20001, "TestError", "Test message", 400, 3, ""⟩
        = [codeLine ⟨20001, "TestError", "Test message", 400, 3, ""⟩,
           httpLine ⟨20001, "TestError", "Test message", 400, 3, ""⟩,
           grpcLine ⟨20001, "TestError", "Test message", 400, 3, ""⟩,
           msgLine ⟨20001, "TestError", "Test message", 400, 3, ""⟩]
    ∧ strIncludes
        (generate ⟨"testpkg", [⟨20001, "TestError", "Test message", 400, 3, ""⟩]⟩)
        (funcSignature ⟨20001, "TestError", "Test message", 400, 3, ""⟩) = true := by
  have h := c6_conditional_desc ⟨20001, "TestError", "Test message", 400, 3, ""⟩
    ⟨"testpkg", [⟨20001, "TestError", "Test message", 400, 3, ""⟩]⟩ (by decide)
  exact ⟨h.1, h.2.1 rfl, h.2.2.2.2.2.2.1⟩

/-- C7 witness: a Config with empty package name generates text containing
"package main"; a Config with package name "testpkg" generates text containing
its own package declaration. -/
theorem c7_default_package_witness :
    strIncludes (generate ⟨"", [⟨20001, "TestError", "Test message", 400, 3, ""⟩]⟩)
      "package main" = true
    ∧ strIncludes (generate ⟨"testpkg", []⟩) ("package " ++ "testpkg") = true :=
  ⟨(c7_default_package ⟨"", [⟨20001, "TestError", "Test message", 400, 3, ""⟩]⟩).1 rfl,
   (c7_default_package ⟨"testpkg", []⟩).2 (by decide)⟩

/-- C9 witness: the error for a concrete document whose second record is the
first invalid one contains the index "1", the key "Test" and the violated
rule's phrase. -/
theorem c9_error_attribution_witness :
    ∃ err, validateAll 0 [⟨20001, "PolicyNotFound", "Policy not found", 404, 5, ""⟩,
        ⟨20001, "Test", "Test message", 400, 17, ""⟩] = some err
      ∧ strIncludes err (Nat.repr 1) = true
      ∧ strIncludes err "Test" = true
      ∧ strIncludes err "grpc code must be between 0 and 16" = true :=
  c9_error_attribution 0 [⟨20001, "PolicyNotFound", "Policy not found", 404, 5, ""⟩]
    ⟨20001, "Test", "Test message", 400, 17, ""⟩ [] "grpc code must be between 0 and 16"
    (by decide) (by decide)
